import Mathlib

/-!
# PolyAstra trading bot — shallow embedding

A shallow embedding of the decision-relevant parts of `polyastra.py`:
the Signal Engine (`calculate_edge`), the Decision Function and sizing
inside `trade_symbol`, the BFXD trend filter (`bfxd_allows_trade`),
the Execution Gateway (`place_order`), the window-slug computation
(`get_current_slug`), the Trade Ledger (`save_trade` plus the settlement
update) and the Settlement Engine (`check_and_settle_trades`).

Numeric values are modelled as rationals (`ℚ`); Python `round(x, n)`
is modelled as exact round-half-to-even at `n` decimal places.
Network reads are modelled as explicit inputs: an order-book fetch is an
`Except` value, the funding bias and Fear & Greed index are plain
arguments (the source already coerces their fetch failures to the
defaults `0` and `50` before they reach the arithmetic).
-/

namespace Polyastra

/-- Default of `MIN_EDGE = float(os.getenv("MIN_EDGE", "0.565"))`. -/
def MIN_EDGE : ℚ := 0.565

/-- Default of `MAX_SPREAD = float(os.getenv("MAX_SPREAD", "0.15"))`. -/
def MAX_SPREAD : ℚ := 0.15

/-- Python `str.upper()`, character by character (the code applies it only
to short ASCII tags such as sides, symbols and trend labels). -/
def pyUpper (s : String) : String := ⟨s.data.map Char.toUpper⟩

/-- Python `str.lower()`, character by character. -/
def pyLower (s : String) : String := ⟨s.data.map Char.toLower⟩

/-- Round-half-to-even to an integer, Python's `round` semantics. -/
def roundHalfEven (q : ℚ) : ℤ :=
  let f := ⌊q⌋
  let r := q - f
  if r < 1 / 2 then f
  else if 1 / 2 < r then f + 1
  else if f % 2 = 0 then f else f + 1

/-- Python `round(q, n)`: round-half-to-even at `n` decimal places. -/
def round_py (q : ℚ) (n : ℕ) : ℚ := (roundHalfEven (q * 10 ^ n) : ℚ) / 10 ^ n

/-- An order book as consumed by the bot: price levels of the bid and ask
sides, sorted worst-to-best (the code reads the LAST element of each). -/
structure Book where
  bids : List ℚ
  asks : List ℚ
deriving DecidableEq

/-- The tuple `calculate_edge` returns:
`(edge, reason, p_up, best_bid, best_ask, imbalance)`. -/
structure EdgeResult where
  edge : ℚ
  reason : String
  pUp : ℚ
  bestBid : Option ℚ
  bestAsk : Option ℚ
  imbalance : ℚ
deriving DecidableEq

/-- `calculate_edge` from `polyastra.py`.  The order-book fetch is the
`book` argument (`.error` models `client.get_order_book` raising);
`fundingBias` is `get_funding_bias(symbol)` (`0.0` on fetch failure) and
`fg` is `get_fear_greed()` (`50` on fetch failure).  Degraded reason
strings are kept as constant tags (the source formats the spread into the
third one). -/
def calculate_edge (book : Except String Book) (fundingBias : ℚ) (fg : ℤ) :
    EdgeResult :=
  match book with
  | .error _ => ⟨0.5, "order book error", 0.5, none, none, 0.5⟩
  | .ok b =>
    match b.bids.getLast?, b.asks.getLast? with
    | none, _ => ⟨0.5, "empty order book", 0.5, none, none, 0.5⟩
    | _, none => ⟨0.5, "empty order book", 0.5, none, none, 0.5⟩
    | some best_bid, some best_ask =>
      -- Python truthiness: `if not best_bid or not best_ask` catches 0.0
      if best_bid = 0 ∨ best_ask = 0 then
        ⟨0.5, "no bid/ask", 0.5, some best_bid, some best_ask, 0.5⟩
      else if best_ask - best_bid > MAX_SPREAD then
        ⟨0.5, "spread too wide", 0.5, some best_bid, some best_ask, 0.5⟩
      else
        let p_up := (best_bid + best_ask) / 2
        let imbalance_raw := best_bid - (1 - best_ask)
        let imbalance := max (min ((imbalance_raw + 0.1) / 0.2) 1) 0
        let edge0 := 0.7 * p_up + 0.3 * imbalance + fundingBias
        let edge :=
          if fg < 30 then edge0 + 0.03
          else if fg > 70 then edge0 - 0.03
          else edge0
        ⟨edge, "OK", p_up, some best_bid, some best_ask, imbalance⟩

/-- The trading decision inside `trade_symbol`:
`edge >= MIN_EDGE` buys UP at `p_up`, `edge <= 1 - MIN_EDGE` buys DOWN at
`1 - p_up`, otherwise no trade.  Returns `(token_id, side, price)`. -/
def trade_decision (edge p_up : ℚ) (upId downId : String) :
    Option (String × String × ℚ) :=
  if edge ≥ MIN_EDGE then some (upId, "UP", p_up)
  else if edge ≤ 1 - MIN_EDGE then some (downId, "DOWN", 1 - p_up)
  else none

/-- `price = max(0.01, min(0.99, price))` in `trade_symbol`. -/
def clamp_price (p : ℚ) : ℚ := max 0.01 (min 0.99 p)

/-- The sizing step of `trade_symbol`: `size = round(BET_USD / price, 6)`;
if `size < 5` it is bumped to the minimum lot `5` and the effective stake
becomes `round(size * price, 4)`, otherwise the stake stays the configured
`BET_USD`.  Returns `(size, bet_usd_effective)`. -/
def size_and_stake (bet_usd price : ℚ) : ℚ × ℚ :=
  let size := round_py (bet_usd / price) 6
  if size < 5 then (5, round_py (5 * price) 4)
  else (size, bet_usd)

/-- Outcome of the BFXD trend lookup `requests.get(BFXD_URL).json()`. -/
inductive BfxdFetch where
  /-- The request raised, returned a bad status, or the body was not JSON. -/
  | err
  /-- JSON parsed but was not an object. -/
  | nonDict
  /-- A JSON object; `entry` is the `"BTC/USDT"` value (already converted
  through Python `str(...)`), `none` when the key is absent. -/
  | dict (entry : Option String)
deriving DecidableEq

/-- `bfxd_allows_trade` from `polyastra.py`.  `bfxdUrl` is the configured
`BFXD_URL` (empty string means unset); `fetch` is the outcome of the HTTP
lookup.  `true` means the BUY is allowed. -/
def bfxd_allows_trade (bfxdUrl : String) (fetch : BfxdFetch)
    (symbol direction : String) : Bool :=
  if bfxdUrl = "" then true
  else if pyUpper symbol ≠ "BTC" then true
  else
    match fetch with
    | .err => true
    | .nonDict => true
    | .dict entry =>
      let trend := pyUpper (entry.getD "")
      if trend = "" then true
      else if trend ≠ "UP" ∧ trend ≠ "DOWN" then true
      else if trend = pyUpper direction then true
      else false

/-- The `resp` dict returned by `post_order` (fields read by the code). -/
structure PostResponse where
  status : Option String
  orderID : Option String
deriving DecidableEq

/-- The dict `place_order` returns. -/
structure OrderResult where
  success : Bool
  status : String
  order_id : Option String
  error : Option String
deriving DecidableEq

/-- `place_order` from `polyastra.py`.  `submit` is the outcome of the
underlying `create_order`/`post_order` capability: `.error e` models any
exception raised inside the `try` block, `.ok none` a falsy response,
`.ok (some resp)` a response dict.  Every outcome is normalized into an
`OrderResult`; nothing propagates. -/
def place_order (submit : Except String (Option PostResponse)) : OrderResult :=
  match submit with
  | .ok (some resp) =>
    ⟨true, resp.status.getD "UNKNOWN", resp.orderID, none⟩
  | .ok none => ⟨true, "UNKNOWN", none, none⟩
  | .error e => ⟨false, "ERROR", none, some e⟩

/-- The keyword arguments `trade_symbol` passes to `save_trade`
(the decision-relevant subset of the columns). -/
structure SavedTrade where
  symbol : String
  token_id : String
  side : String
  edge : ℚ
  price : ℚ
  size : ℚ
  bet_usd : ℚ
  p_yes : ℚ
  order_status : String
  order_id : Option String
deriving DecidableEq

/-- Where a `trade_symbol` run ends. -/
inductive TradeOutcome where
  /-- `get_token_ids` found no market: `return` before any decision. -/
  | skipNoMarket
  /-- Edge inside the dead zone: `PASS`, no order. -/
  | pass
  /-- The BFXD filter vetoed the BUY. -/
  | blockedByBfxd
  /-- `price <= 0`: invalid, no order. -/
  | invalidPrice
  /-- An order was attempted and this row is handed to `save_trade`. -/
  | placed (row : SavedTrade)
deriving DecidableEq

/-- `trade_symbol` from `polyastra.py`, from the token lookup through the
row handed to `save_trade`.  `er` is the result of `calculate_edge`;
`bfxdUrl`/`bf` feed the trend filter; `submit` feeds `place_order`. -/
def trade_symbol (symbol : String) (upId downId : Option String)
    (er : EdgeResult) (bfxdUrl : String) (bf : BfxdFetch) (bet_usd : ℚ)
    (submit : Except String (Option PostResponse)) : TradeOutcome :=
  match upId, downId with
  | some up, some down =>
    match trade_decision er.edge er.pUp up down with
    | none => .pass
    | some (token_id, side, price0) =>
      if bfxd_allows_trade bfxdUrl bf symbol side then
        if price0 ≤ 0 then .invalidPrice
        else
          let price := clamp_price price0
          let ss := size_and_stake bet_usd price
          let result := place_order submit
          .placed ⟨symbol, token_id, side, er.edge, price, ss.1, ss.2,
                   er.pUp, result.status, result.order_id⟩
      else .blockedByBfxd
  | _, _ => .skipNoMarket

/-- A reading of `datetime.now(tz=ZoneInfo("America/New_York"))`, reduced
to the fields `get_current_slug` consumes.  `hourStartUtc` is the absolute
UTC timestamp (in seconds) of the start of the current ET wall-clock hour;
within one hour the UTC offset is constant (DST shifts fall on hour
boundaries), so `replace(minute=slot, second=0, microsecond=0)` followed
by `.astimezone(UTC).timestamp()` is `hourStartUtc + 60 * slot`. -/
structure ETClock where
  hourStartUtc : ℤ
  minute : ℕ
  second : ℕ
deriving DecidableEq

/-- Absolute UTC timestamp of the window start `get_current_slug` derives:
the minute floored to its 15-minute slot, seconds dropped. -/
def window_start_ts (c : ETClock) : ℤ :=
  c.hourStartUtc + 60 * (c.minute / 15 * 15)

/-- The slug string as a function of instrument and window-start instant. -/
def slug_of (symbol : String) (ts : ℤ) : String :=
  pyLower symbol ++ "-updown-15m-" ++ toString ts

/-- `get_current_slug` from `polyastra.py`:
`f"{symbol.lower()}-updown-15m-{ts}"` with `ts` the UTC timestamp of the
floored window start. -/
def get_current_slug (symbol : String) (c : ETClock) : String :=
  let minute_slot := c.minute / 15 * 15
  let ts := c.hourStartUtc + 60 * minute_slot
  pyLower symbol ++ "-updown-15m-" ++ toString ts

/-- A row of the `trades` table (the lifecycle-relevant columns). -/
structure TradeRow where
  symbol : String
  token_id : String
  side : String
  size : ℚ
  bet_usd : ℚ
  window_end : ℤ
  order_status : String
  settled : Bool
  final_outcome : Option String
  exit_price : Option ℚ
  pnl_usd : Option ℚ
  roi_pct : Option ℚ
  settled_at : Option ℤ
deriving DecidableEq

/-- `save_trade`: the INSERT lists no settlement column, so a fresh row has
`settled = 0` (the column default) and NULL settlement fields. -/
def save_trade (s : SavedTrade) (window_end : ℤ) : TradeRow :=
  { symbol := s.symbol, token_id := s.token_id, side := s.side,
    size := s.size, bet_usd := s.bet_usd, window_end := window_end,
    order_status := s.order_status, settled := false, final_outcome := none,
    exit_price := none, pnl_usd := none, roi_pct := none, settled_at := none }

/-- The mid price the settlement loop reads from the fetched book
(`0.5` when either side is empty; best level is the LAST element). -/
def settle_final_price (b : Book) : ℚ :=
  match b.bids.getLast?, b.asks.getLast? with
  | some best_bid, some best_ask => (best_bid + best_ask) / 2
  | _, _ => 0.5

/-- `exit_value` in the settlement loop: the fetched price when the stored
side upper-cases to `UP` or `YES`, else its complement. -/
def exit_value (side : String) (final_price : ℚ) : ℚ :=
  if pyUpper side = "UP" ∨ pyUpper side = "YES" then final_price
  else 1 - final_price

/-- The single UPDATE the settlement loop performs on one row: sets
`final_outcome`, `exit_price`, `pnl_usd`, `roi_pct`, `settled = 1` and
`settled_at` together. -/
def settle_row (t : TradeRow) (b : Book) (now : ℤ) : TradeRow :=
  let final_price := settle_final_price b
  let ev := exit_value t.side final_price
  let pnl_usd := ev * t.size - t.bet_usd
  let roi_pct := if t.bet_usd > 0 then pnl_usd / t.bet_usd * 100 else 0
  { t with final_outcome := some "PENDING", exit_price := some final_price,
           pnl_usd := some pnl_usd, roi_pct := some roi_pct,
           settled := true, settled_at := some now }

/-- The body of the per-trade `try` in `check_and_settle_trades`: if the
order-book fetch raises, the exception is caught (logged) and the row is
left untouched; otherwise the row is settled. -/
def settle_attempt (fetch : String → Except String Book) (now : ℤ)
    (t : TradeRow) : TradeRow :=
  match fetch t.token_id with
  | .error _ => t
  | .ok b => settle_row t b now

/-- `check_and_settle_trades` applied to the selected due rows
(`settled = 0 AND window_end < now`): each row is attempted independently,
in order. -/
def check_and_settle_trades (fetch : String → Except String Book) (now : ℤ)
    (due : List TradeRow) : List TradeRow :=
  due.map (settle_attempt fetch now)

/-- One settlement pass over the whole table: rows matching the due
selection are attempted, every other row is untouched. -/
def settle_pass (fetch : String → Except String Book) (now : ℤ)
    (db : List TradeRow) : List TradeRow :=
  db.map fun t =>
    if t.settled = false ∧ t.window_end < now then settle_attempt fetch now t
    else t

/-- The only operations that ever write the `trades` table. -/
inductive Step : List TradeRow → List TradeRow → Prop
  /-- `save_trade` appends a fresh OPEN row. -/
  | insert (db : List TradeRow) (s : SavedTrade) (window_end : ℤ) :
      Step db (db ++ [save_trade s window_end])
  /-- `check_and_settle_trades` runs one settlement pass. -/
  | settle (db : List TradeRow) (fetch : String → Except String Book)
      (now : ℤ) : Step db (settle_pass fetch now db)

/-- Tables reachable from the freshly initialized (empty) `trades` table. -/
inductive Reach : List TradeRow → Prop
  | init : Reach []
  | step {db db' : List TradeRow} : Reach db → Step db db' → Reach db'

/-- Row-level lifecycle invariant: `settled_at` is set iff the row is
SETTLED, and all settlement fields are NULL while it is OPEN. -/
def rowInv (t : TradeRow) : Prop :=
  (t.settled = true ↔ t.settled_at.isSome) ∧
  (t.settled = false →
    t.pnl_usd = none ∧ t.roi_pct = none ∧ t.exit_price = none ∧
    t.settled_at = none)

theorem rowInv_save_trade (s : SavedTrade) (we : ℤ) :
    rowInv (save_trade s we) := by
  constructor
  · simp [save_trade]
  · intro _; exact ⟨rfl, rfl, rfl, rfl⟩

theorem rowInv_settle_row (t : TradeRow) (b : Book) (now : ℤ) :
    rowInv (settle_row t b now) := by
  constructor
  · simp [settle_row]
  · intro h; simp [settle_row] at h

theorem rowInv_settle_attempt (f : String → Except String Book) (now : ℤ)
    (t : TradeRow) (h : rowInv t) : rowInv (settle_attempt f now t) := by
  unfold settle_attempt
  cases f t.token_id with
  | error e => exact h
  | ok b => exact rowInv_settle_row t b now

/-- C3: with the default `MIN_EDGE = 0.565`, any edge strictly between
`0.435` and `0.565` yields no trade; `edge ≥ MIN_EDGE` yields BUY UP at
`p_up` (the mid price) and `edge ≤ 1 - MIN_EDGE` yields BUY DOWN at
`1 - p_up`. -/
theorem decision_dead_zone (edge p_up : ℚ) (up down : String) :
    MIN_EDGE = 0.565 ∧
    (0.435 < edge → edge < 0.565 →
      trade_decision edge p_up up down = none) ∧
    (edge ≥ MIN_EDGE →
      trade_decision edge p_up up down = some (up, "UP", p_up)) ∧
    (edge ≤ 1 - MIN_EDGE →
      trade_decision edge p_up up down = some (down, "DOWN", 1 - p_up)) := by
  refine ⟨rfl, ?_, ?_, ?_⟩
  · intro h1 h2
    have hne : ¬ (edge ≥ MIN_EDGE) := by rw [MIN_EDGE]; exact not_le.mpr h2
    have hnd : ¬ (edge ≤ 1 - MIN_EDGE) := by
      rw [MIN_EDGE]; rw [not_le]; linarith
    simp [trade_decision, hne, hnd]
  · intro h
    simp [trade_decision, h]
  · intro h
    have hne : ¬ (edge ≥ MIN_EDGE) := by
      rw [MIN_EDGE] at *; rw [ge_iff_le, not_le]; linarith
    simp [trade_decision, hne, h]

theorem decision_dead_zone_witness :
    trade_decision 0.5 0.61 "u" "d" = none ∧
    trade_decision 0.727 0.61 "u" "d" = some ("u", "UP", 0.61) ∧
    trade_decision 0.3 0.61 "u" "d" = some ("d", "DOWN", 1 - 0.61) := by
  refine ⟨?_, ?_, ?_⟩
  · exact (decision_dead_zone 0.5 0.61 "u" "d").2.1 (by norm_num) (by norm_num)
  · exact (decision_dead_zone 0.727 0.61 "u" "d").2.2.1
      (by rw [MIN_EDGE]; norm_num)
  · exact (decision_dead_zone 0.3 0.61 "u" "d").2.2.2
      (by rw [MIN_EDGE]; norm_num)

/-- C7: the window slug is a function of the instrument and the absolute
UTC timestamp of the floored window start only (never of the wall-clock
query time), so any two reference times inside the same boundary-aligned
15-minute interval (same hour, same quarter of the hour) produce the
identical slug. -/
theorem slug_idempotent_within_window (symbol : String) (c1 c2 : ETClock)
    (hhour : c1.hourStartUtc = c2.hourStartUtc)
    (hslot : c1.minute / 15 = c2.minute / 15) :
    (∀ c : ETClock,
      get_current_slug symbol c = slug_of symbol (window_start_ts c)) ∧
    get_current_slug symbol c1 = get_current_slug symbol c2 := by
  constructor
  · intro c; rfl
  · simp only [get_current_slug, hhour, hslot]

theorem slug_idempotent_witness :
    (∀ c : ETClock,
      get_current_slug "BTC" c = slug_of "BTC" (window_start_ts c)) ∧
    get_current_slug "BTC" ⟨1760281200, 17, 5⟩ =
      get_current_slug "BTC" ⟨1760281200, 29, 59⟩ :=
  slug_idempotent_within_window "BTC" ⟨1760281200, 17, 5⟩
    ⟨1760281200, 29, 59⟩ rfl rfl

/-- C10: the BFXD trend filter blocks a BUY exactly when `BFXD_URL` is
configured, the symbol upper-cases to `BTC`, and the fetch produced an
object whose `BTC/USDT` value upper-cases to exactly `UP` or `DOWN` and
differs from the chosen direction; every other case (unset URL, non-BTC
symbol, fetch error, non-object payload, missing entry, unrecognized
trend) fails open. -/
theorem bfxd_fail_open (url symbol direction : String) (fetch : BfxdFetch) :
    bfxd_allows_trade url fetch symbol direction = false ↔
      url ≠ "" ∧ pyUpper symbol = "BTC" ∧
        ∃ entry, fetch = .dict entry ∧
          (pyUpper (entry.getD "") = "UP" ∨
            pyUpper (entry.getD "") = "DOWN") ∧
          pyUpper (entry.getD "") ≠ pyUpper direction := by
  cases fetch with
  | err =>
    simp only [bfxd_allows_trade]
    split_ifs with h1 h2 <;> simp_all
  | nonDict =>
    simp only [bfxd_allows_trade]
    split_ifs with h1 h2 <;> simp_all
  | dict entry =>
    simp only [bfxd_allows_trade]
    split_ifs with h1 h2 h3 h4 h5 <;> (simp_all; try tauto)

/-- C1: in one settlement pass, a due trade whose order-book fetch fails
is returned exactly as it came in (still OPEN, `pnl_usd`/`roi_pct`/
`exit_price`/`settled_at` untouched), while every due trade whose fetch
succeeds is settled — the failure is isolated to its own row. -/
theorem settlement_failure_isolated (fetch : String → Except String Book)
    (now : ℤ) (due : List TradeRow) (i : ℕ) (t : TradeRow)
    (ht : due[i]? = some t) :
    ((∃ e, fetch t.token_id = .error e) →
      (check_and_settle_trades fetch now due)[i]? = some t) ∧
    (∀ b, fetch t.token_id = .ok b →
      (check_and_settle_trades fetch now due)[i]? =
        some (settle_row t b now) ∧
      (settle_row t b now).settled = true ∧
      (settle_row t b now).settled_at = some now) := by
  constructor
  · rintro ⟨e, he⟩
    simp [check_and_settle_trades, List.getElem?_map, ht, settle_attempt, he]
  · intro b hb
    refine ⟨?_, rfl, rfl⟩
    simp [check_and_settle_trades, List.getElem?_map, ht, settle_attempt, hb]

theorem settlement_failure_isolated_witness :
    (check_and_settle_trades
        (fun tid => if tid = "tokA" then .error "timeout"
          else .ok ⟨[0.68], [0.72]⟩) 900
        [⟨"BTC", "tokA", "UP", 10, 6, 800, "matched", false,
            none, none, none, none, none⟩,
         ⟨"ETH", "tokB", "DOWN", 5, 3, 800, "matched", false,
            none, none, none, none, none⟩])[0]? =
      some ⟨"BTC", "tokA", "UP", 10, 6, 800, "matched", false,
            none, none, none, none, none⟩ ∧
    (check_and_settle_trades
        (fun tid => if tid = "tokA" then .error "timeout"
          else .ok ⟨[0.68], [0.72]⟩) 900
        [⟨"BTC", "tokA", "UP", 10, 6, 800, "matched", false,
            none, none, none, none, none⟩,
         ⟨"ETH", "tokB", "DOWN", 5, 3, 800, "matched", false,
            none, none, none, none, none⟩])[1]? =
      some (settle_row
        ⟨"ETH", "tokB", "DOWN", 5, 3, 800, "matched", false,
            none, none, none, none, none⟩ ⟨[0.68], [0.72]⟩ 900) ∧
    (settle_row
        ⟨"ETH", "tokB", "DOWN", 5, 3, 800, "matched", false,
            none, none, none, none, none⟩ ⟨[0.68], [0.72]⟩ 900).settled =
      true := by
  have hA := settlement_failure_isolated
    (fun tid => if tid = "tokA" then .error "timeout"
      else .ok ⟨[0.68], [0.72]⟩) 900
    [⟨"BTC", "tokA", "UP", 10, 6, 800, "matched", false,
        none, none, none, none, none⟩,
     ⟨"ETH", "tokB", "DOWN", 5, 3, 800, "matched", false,
        none, none, none, none, none⟩] 0
    ⟨"BTC", "tokA", "UP", 10, 6, 800, "matched", false,
        none, none, none, none, none⟩ rfl
  have hB := settlement_failure_isolated
    (fun tid => if tid = "tokA" then .error "timeout"
      else .ok ⟨[0.68], [0.72]⟩) 900
    [⟨"BTC", "tokA", "UP", 10, 6, 800, "matched", false,
        none, none, none, none, none⟩,
     ⟨"ETH", "tokB", "DOWN", 5, 3, 800, "matched", false,
        none, none, none, none, none⟩] 1
    ⟨"ETH", "tokB", "DOWN", 5, 3, 800, "matched", false,
        none, none, none, none, none⟩ rfl
  exact ⟨hA.1 ⟨"timeout", rfl⟩, (hB.2 ⟨[0.68], [0.72]⟩ rfl).1,
    (hB.2 ⟨[0.68], [0.72]⟩ rfl).2.1⟩

/-- C2 counterexample: on the wide-spread book `bid 0.40 / ask 0.62`
(spread `0.22 > MAX_SPREAD = 0.15`) the degraded result carries `0.5` in
its imbalance slot, not `0` as the claim states. -/
theorem degraded_imbalance_is_half_not_zero :
    (calculate_edge (.ok ⟨[0.40], [0.62]⟩) 0 50).imbalance = 0.5 ∧
    (calculate_edge (.ok ⟨[0.40], [0.62]⟩) 0 50).imbalance ≠ 0 := by
  constructor
  · norm_num [calculate_edge, MAX_SPREAD]
  · norm_num [calculate_edge, MAX_SPREAD]

/-- C2 (amended): whenever the fetched book is missing bids or asks, or
its best spread exceeds `MAX_SPREAD`, `calculate_edge` returns the
degraded result with neutral midpoint `0.5`, neutral imbalance slot `0.5`
and edge `0.5`, and with the default `MIN_EDGE = 0.565` the decision in
`trade_symbol` is a PASS: no order is placed. -/
theorem degraded_book_yields_pass (b : Book) (fb : ℚ) (fg : ℤ)
    (hdeg : b.bids.getLast? = none ∨ b.asks.getLast? = none ∨
      ∃ bb ba, b.bids.getLast? = some bb ∧ b.asks.getLast? = some ba ∧
        ba - bb > MAX_SPREAD) :
    (calculate_edge (.ok b) fb fg).edge = 0.5 ∧
    (calculate_edge (.ok b) fb fg).pUp = 0.5 ∧
    (calculate_edge (.ok b) fb fg).imbalance = 0.5 ∧
    ∀ symbol up down url bf bet submit,
      trade_symbol symbol (some up) (some down)
        (calculate_edge (.ok b) fb fg) url bf bet submit = .pass := by
  have hneutral : (calculate_edge (.ok b) fb fg).edge = 0.5 ∧
      (calculate_edge (.ok b) fb fg).pUp = 0.5 ∧
      (calculate_edge (.ok b) fb fg).imbalance = 0.5 := by
    rcases hdeg with h | h | ⟨bb, ba, hb, ha, hsp⟩
    · cases ha : b.asks.getLast? <;> simp [calculate_edge, h, ha]
    · cases hb : b.bids.getLast? <;> simp [calculate_edge, h, hb]
    · by_cases h1 : bb = 0 ∨ ba = 0
      · simp [calculate_edge, hb, ha, h1]
      · simp [calculate_edge, hb, ha, h1, hsp]
  refine ⟨hneutral.1, hneutral.2.1, hneutral.2.2, ?_⟩
  intro symbol up down url bf bet submit
  have hnone : trade_decision (calculate_edge (.ok b) fb fg).edge
      (calculate_edge (.ok b) fb fg).pUp up down = none := by
    rw [hneutral.1]
    have h1 : ¬ ((0.5 : ℚ) ≥ MIN_EDGE) := by rw [MIN_EDGE]; norm_num
    have h2 : ¬ ((0.5 : ℚ) ≤ 1 - MIN_EDGE) := by rw [MIN_EDGE]; norm_num
    simp [trade_decision, h1, h2]
  simp [trade_symbol, hnone]

theorem degraded_book_yields_pass_witness :
    (calculate_edge (.ok ⟨[0.40], [0.62]⟩) 0 50).edge = 0.5 ∧
    (calculate_edge (.ok ⟨[0.40], [0.62]⟩) 0 50).pUp = 0.5 ∧
    (calculate_edge (.ok ⟨[0.40], [0.62]⟩) 0 50).imbalance = 0.5 ∧
    ∀ symbol up down url bf bet submit,
      trade_symbol symbol (some up) (some down)
        (calculate_edge (.ok ⟨[0.40], [0.62]⟩) 0 50) url bf bet submit =
        .pass :=
  degraded_book_yields_pass ⟨[0.40], [0.62]⟩ 0 50
    (Or.inr (Or.inr ⟨0.40, 0.62, rfl, rfl, by rw [MAX_SPREAD]; norm_num⟩))

/-- C4: on a non-degraded book read (both best levels present and nonzero,
spread within `MAX_SPREAD`), `calculate_edge` returns the mid price
`(best_bid + best_ask) / 2`, the imbalance
`clamp((best_bid - (1 - best_ask) + 0.1) / 0.2, 0, 1)` and the edge
`0.7 * mid + 0.3 * imbalance + funding_bias`, shifted by `+0.03` when
sentiment `< 30` and `-0.03` when sentiment `> 70`; when that edge clears
`MIN_EDGE` the decision is BUY UP at the mid price. -/
theorem calculate_edge_formula (b : Book) (bb ba fb : ℚ) (fg : ℤ)
    (hb : b.bids.getLast? = some bb) (ha : b.asks.getLast? = some ba)
    (hbb : bb ≠ 0) (hba : ba ≠ 0) (hsp : ba - bb ≤ MAX_SPREAD) :
    calculate_edge (.ok b) fb fg =
      ⟨(if fg < 30 then
          0.7 * ((bb + ba) / 2) +
            0.3 * (max (min ((bb - (1 - ba) + 0.1) / 0.2) 1) 0) + fb + 0.03
        else if fg > 70 then
          0.7 * ((bb + ba) / 2) +
            0.3 * (max (min ((bb - (1 - ba) + 0.1) / 0.2) 1) 0) + fb - 0.03
        else
          0.7 * ((bb + ba) / 2) +
            0.3 * (max (min ((bb - (1 - ba) + 0.1) / 0.2) 1) 0) + fb),
       "OK", (bb + ba) / 2, some bb, some ba,
       max (min ((bb - (1 - ba) + 0.1) / 0.2) 1) 0⟩ ∧
    ((calculate_edge (.ok b) fb fg).edge ≥ MIN_EDGE →
      ∀ up down, trade_decision (calculate_edge (.ok b) fb fg).edge
        (calculate_edge (.ok b) fb fg).pUp up down =
          some (up, "UP", (bb + ba) / 2)) := by
  have heq : calculate_edge (.ok b) fb fg =
      ⟨(if fg < 30 then
          0.7 * ((bb + ba) / 2) +
            0.3 * (max (min ((bb - (1 - ba) + 0.1) / 0.2) 1) 0) + fb + 0.03
        else if fg > 70 then
          0.7 * ((bb + ba) / 2) +
            0.3 * (max (min ((bb - (1 - ba) + 0.1) / 0.2) 1) 0) + fb - 0.03
        else
          0.7 * ((bb + ba) / 2) +
            0.3 * (max (min ((bb - (1 - ba) + 0.1) / 0.2) 1) 0) + fb),
       "OK", (bb + ba) / 2, some bb, some ba,
       max (min ((bb - (1 - ba) + 0.1) / 0.2) 1) 0⟩ := by
    simp only [calculate_edge, hb, ha]
    have h1 : ¬ (bb = 0 ∨ ba = 0) := by tauto
    rw [if_neg h1, if_neg (not_lt.mpr hsp)]
  refine ⟨heq, ?_⟩
  intro hme up down
  rw [heq] at hme ⊢
  simp [trade_decision, hme]

theorem calculate_edge_formula_witness :
    calculate_edge (.ok ⟨[0.60], [0.62]⟩) 0 50 =
      ⟨0.727, "OK", 0.61, some 0.60, some 0.62, 1⟩ ∧
    trade_decision 0.727 0.61 "up-token" "down-token" =
      some ("up-token", "UP", 0.61) := by
  have h := calculate_edge_formula ⟨[0.60], [0.62]⟩ 0.60 0.62 0 50 rfl rfl
    (by norm_num) (by norm_num) (by rw [MAX_SPREAD]; norm_num)
  have heval : calculate_edge (.ok ⟨[0.60], [0.62]⟩) 0 50 =
      ⟨0.727, "OK", 0.61, some 0.60, some 0.62, 1⟩ := by
    rw [h.1]; norm_num
  refine ⟨heval, ?_⟩
  have := h.2 (by rw [heval, MIN_EDGE]; norm_num) "up-token" "down-token"
  rw [heval] at this
  convert this using 2
  norm_num

/-- C5 counterexample: with stake `10` and price `0.3` the computed size
is `round(10 / 0.3, 6) = 33.333333`, not the exact quotient `10 / 0.3`
the claim states for the no-bump branch. -/
theorem sizing_rounds_quotient :
    size_and_stake 10 (clamp_price 0.3) = (33333333 / 1000000, 10) ∧
    (size_and_stake 10 (clamp_price 0.3)).1 ≠ 10 / clamp_price 0.3 := by
  have h : size_and_stake 10 (clamp_price 0.3) = (33333333 / 1000000, 10) := by
    norm_num [size_and_stake, clamp_price, round_py, roundHalfEven]
  refine ⟨h, ?_⟩
  rw [h]
  norm_num [clamp_price]

/-- C5 (amended): the price is clamped to `[0.01, 0.99]` before sizing;
when the computed size `round(stake / price, 6)` is below the minimum lot
`5` the returned size is exactly `5` and the effective stake is
`round(5 * price, 4)`, otherwise the size is `round(stake / price, 6)`
and the effective stake is the configured stake; the pair the trade row
persists is exactly this `(size, effective stake)`. -/
theorem sizing_floor (bet_usd p0 : ℚ) :
    0.01 ≤ clamp_price p0 ∧ clamp_price p0 ≤ 0.99 ∧
    (round_py (bet_usd / clamp_price p0) 6 < 5 →
      size_and_stake bet_usd (clamp_price p0) =
        (5, round_py (5 * clamp_price p0) 4)) ∧
    (5 ≤ round_py (bet_usd / clamp_price p0) 6 →
      size_and_stake bet_usd (clamp_price p0) =
        (round_py (bet_usd / clamp_price p0) 6, bet_usd)) ∧
    (∀ symbol up down er url bf submit row,
      trade_symbol symbol (some up) (some down) er url bf bet_usd submit =
        .placed row →
      (row.size, row.bet_usd) = size_and_stake bet_usd row.price) := by
  refine ⟨le_max_left _ _, max_le (by norm_num) (min_le_left _ _), ?_, ?_, ?_⟩
  · intro h
    simp only [size_and_stake]
    rw [if_pos h]
  · intro h
    simp only [size_and_stake]
    rw [if_neg (not_lt.mpr h)]
  · intro symbol up down er url bf submit row h
    unfold trade_symbol at h
    dsimp only at h
    cases hdec : trade_decision er.edge er.pUp up down with
    | none => rw [hdec] at h; simp at h
    | some d =>
      obtain ⟨tok, side, price0⟩ := d
      rw [hdec] at h
      dsimp only at h
      by_cases hbf : bfxd_allows_trade url bf symbol side = true
      · rw [if_pos hbf] at h
        by_cases hp : price0 ≤ 0
        · rw [if_pos hp] at h; simp at h
        · rw [if_neg hp] at h
          injection h with h'
          subst h'
          rfl
      · rw [if_neg hbf] at h; simp at h

theorem sizing_floor_witness :
    size_and_stake 1.1 (clamp_price 0.61) = (5, 3.05) ∧
    size_and_stake 10 (clamp_price 0.3) = (33333333 / 1000000, 10) := by
  constructor
  · have h := (sizing_floor 1.1 0.61).2.2.1
      (by norm_num [clamp_price, round_py, roundHalfEven])
    rw [h]
    norm_num [clamp_price, round_py, roundHalfEven]
  · have h := (sizing_floor 10 0.3).2.2.2.1
      (by norm_num [clamp_price, round_py, roundHalfEven])
    rw [h]
    norm_num [clamp_price, round_py, roundHalfEven]

/-- C6: a settled trade's exit price is the freshly fetched mid price,
`exit_value` is that mid for side UP and its complement for side DOWN,
`pnl_usd = exit_value * size - stake` and
`roi_pct = pnl_usd / stake * 100`. -/
theorem settlement_pnl_formula (t : TradeRow) (b : Book) (now : ℤ)
    (bb ba : ℚ) (hb : b.bids.getLast? = some bb)
    (ha : b.asks.getLast? = some ba)
    (hside : t.side = "UP" ∨ t.side = "DOWN") (hstake : 0 < t.bet_usd) :
    (settle_row t b now).exit_price = some ((bb + ba) / 2) ∧
    (settle_row t b now).pnl_usd =
      some ((if t.side = "UP" then (bb + ba) / 2 else 1 - (bb + ba) / 2) *
        t.size - t.bet_usd) ∧
    (settle_row t b now).roi_pct =
      some (((if t.side = "UP" then (bb + ba) / 2 else 1 - (bb + ba) / 2) *
        t.size - t.bet_usd) / t.bet_usd * 100) := by
  have hfp : settle_final_price b = (bb + ba) / 2 := by
    simp [settle_final_price, hb, ha]
  have hev : exit_value t.side (settle_final_price b) =
      (if t.side = "UP" then (bb + ba) / 2 else 1 - (bb + ba) / 2) := by
    rcases hside with h | h <;> rw [h, hfp, exit_value]
    · rw [if_pos (by decide), if_pos (by decide)]
    · rw [if_neg (by decide), if_neg (by decide)]
  refine ⟨?_, ?_, ?_⟩
  · simp [settle_row, hfp]
  · simp [settle_row, hev]
  · simp [settle_row, hev, hstake]

theorem settlement_pnl_witness :
    (settle_row
        ⟨"BTC", "tok", "UP", 10, 6, 800, "matched", false,
          none, none, none, none, none⟩ ⟨[0.68], [0.72]⟩ 900).exit_price =
      some 0.7 ∧
    (settle_row
        ⟨"BTC", "tok", "UP", 10, 6, 800, "matched", false,
          none, none, none, none, none⟩ ⟨[0.68], [0.72]⟩ 900).pnl_usd =
      some 1 ∧
    (settle_row
        ⟨"BTC", "tok", "UP", 10, 6, 800, "matched", false,
          none, none, none, none, none⟩ ⟨[0.68], [0.72]⟩ 900).roi_pct =
      some (50 / 3) := by
  have h := settlement_pnl_formula
    ⟨"BTC", "tok", "UP", 10, 6, 800, "matched", false,
      none, none, none, none, none⟩ ⟨[0.68], [0.72]⟩ 900 0.68 0.72 rfl rfl
    (Or.inl rfl) (by norm_num)
  simp only [if_pos rfl] at h
  refine ⟨?_, ?_, ?_⟩
  · rw [h.1]; norm_num
  · rw [h.2.1]; norm_num
  · rw [h.2.2]; norm_num

/-- C8: rows are created OPEN with all settlement fields NULL; on every
reachable table every row has `settled_at` set iff it is SETTLED and NULL
settlement fields while OPEN; and no operation ever changes a SETTLED
row, in particular none transitions it back to OPEN. -/
theorem trade_lifecycle (db : List TradeRow) (h : Reach db) :
    (∀ (s : SavedTrade) (we : ℤ),
      (save_trade s we).settled = false ∧
      (save_trade s we).pnl_usd = none ∧ (save_trade s we).roi_pct = none ∧
      (save_trade s we).exit_price = none ∧
      (save_trade s we).settled_at = none) ∧
    (∀ t ∈ db, rowInv t) ∧
    (∀ db', Step db db' → ∀ (i : ℕ) (t t' : TradeRow),
      db[i]? = some t → db'[i]? = some t' →
      t.settled = true → t' = t) := by
  refine ⟨fun s we => ⟨rfl, rfl, rfl, rfl, rfl⟩, ?_, ?_⟩
  · induction h with
    | init => intro t ht; simp at ht
    | step hr hstep ih =>
      cases hstep with
      | insert s we =>
        intro t ht
        rcases List.mem_append.mp ht with h' | h'
        · exact ih t h'
        · rw [List.mem_singleton.mp h']
          exact rowInv_save_trade s we
      | settle fetch now =>
        intro t ht
        rcases List.mem_map.mp ht with ⟨t₀, ht₀, rfl⟩
        by_cases hc : t₀.settled = false ∧ t₀.window_end < now
        · simp only [if_pos hc]
          exact rowInv_settle_attempt fetch now t₀ (ih t₀ ht₀)
        · simp only [if_neg hc]
          exact ih t₀ ht₀
  · intro db' hstep i t t' ht ht' hs
    cases hstep with
    | insert s we =>
      have hlt : i < db.length := (List.getElem?_eq_some.mp ht).1
      rw [List.getElem?_append, if_pos hlt, ht] at ht'
      exact (Option.some_injective _ ht').symm
    | settle fetch now =>
      rw [settle_pass, List.getElem?_map, ht, Option.map_some'] at ht'
      have h' := Option.some_injective _ ht'
      rw [← h']
      simp [hs]

theorem trade_lifecycle_witness :
    Reach [save_trade
      ⟨"BTC", "tok", "UP", 0.7, 0.61, 5, 3.05, 0.61, "matched",
        some "oid"⟩ 900] ∧
    ((∀ (s : SavedTrade) (we : ℤ),
      (save_trade s we).settled = false ∧
      (save_trade s we).pnl_usd = none ∧ (save_trade s we).roi_pct = none ∧
      (save_trade s we).exit_price = none ∧
      (save_trade s we).settled_at = none) ∧
    (∀ t ∈ [save_trade
      ⟨"BTC", "tok", "UP", 0.7, 0.61, 5, 3.05, 0.61, "matched",
        some "oid"⟩ 900], rowInv t) ∧
    (∀ db', Step [save_trade
      ⟨"BTC", "tok", "UP", 0.7, 0.61, 5, 3.05, 0.61, "matched",
        some "oid"⟩ 900] db' →
      ∀ (i : ℕ) (t t' : TradeRow), [save_trade
        ⟨"BTC", "tok", "UP", 0.7, 0.61, 5, 3.05, 0.61, "matched",
          some "oid"⟩ 900][i]? = some t → db'[i]? = some t' →
        t.settled = true → t' = t)) := by
  have hr : Reach [save_trade
      ⟨"BTC", "tok", "UP", 0.7, 0.61, 5, 3.05, 0.61, "matched",
        some "oid"⟩ 900] :=
    Reach.step Reach.init
      (Step.insert []
        ⟨"BTC", "tok", "UP", 0.7, 0.61, 5, 3.05, 0.61, "matched",
          some "oid"⟩ 900)
  exact ⟨hr, trade_lifecycle _ hr⟩

/-- C9: `place_order` normalizes any submission exception into
`{success: false, status: ERROR, order_id: null, error}` (nothing
propagates), and whenever a decision reaches the order step with a failed
submission, the row handed to `save_trade` records
`order_status = "ERROR"` — a failed submission still yields a trade
record. -/
theorem order_failure_recorded (e symbol up down tok side : String)
    (price0 : ℚ) (er : EdgeResult) (url : String) (bf : BfxdFetch)
    (bet_usd : ℚ)
    (hdec : trade_decision er.edge er.pUp up down = some (tok, side, price0))
    (hbf : bfxd_allows_trade url bf symbol side = true)
    (hp : 0 < price0) :
    place_order (.error e) = ⟨false, "ERROR", none, some e⟩ ∧
    trade_symbol symbol (some up) (some down) er url bf bet_usd (.error e) =
      .placed ⟨symbol, tok, side, er.edge, clamp_price price0,
        (size_and_stake bet_usd (clamp_price price0)).1,
        (size_and_stake bet_usd (clamp_price price0)).2,
        er.pUp, "ERROR", none⟩ := by
  refine ⟨rfl, ?_⟩
  unfold trade_symbol
  dsimp only
  rw [hdec]
  dsimp only
  rw [if_pos hbf, if_neg (not_le.mpr hp)]
  rfl

theorem order_failure_recorded_witness :
    place_order (.error "insufficient balance") =
      ⟨false, "ERROR", none, some "insufficient balance"⟩ ∧
    trade_symbol "BTC" (some "utok") (some "dtok")
        ⟨0.727, "OK", 0.61, some 0.60, some 0.62, 1⟩ "" .err 1.1
        (.error "insufficient balance") =
      .placed ⟨"BTC", "utok", "UP", 0.727, 0.61, 5, 3.05, 0.61,
        "ERROR", none⟩ := by
  have h := order_failure_recorded "insufficient balance" "BTC" "utok"
    "dtok" "utok" "UP" 0.61
    ⟨0.727, "OK", 0.61, some 0.60, some 0.62, 1⟩ "" .err 1.1
    (by rw [trade_decision, if_pos (by rw [MIN_EDGE]; norm_num)])
    rfl (by norm_num)
  refine ⟨h.1, ?_⟩
  rw [h.2]
  have hc : clamp_price (0.61 : ℚ) = 0.61 := by
    norm_num [clamp_price]
  have hs : size_and_stake 1.1 (clamp_price 0.61) = (5, 3.05) := by
    norm_num [size_and_stake, clamp_price, round_py, roundHalfEven]
  rw [hc] at hs ⊢
  rw [hs]

end Polyastra
